import Mathlib

/-!
Shallow embedding of the concurrent file-download pipeline in `files.go`
(package `slackdump`): attachment extraction (`filesFromMessages`,
`ChannelFiles`), the streaming deduplication stage (`seenFilter`), the
per-attachment download operation (`SaveFileTo`, `filename`), the worker
loop (`worker`) and the pipeline coordinator (`fileDownloader`).

External effects (the filesystem, the Slack HTTP client, the rate limiter)
are modelled by an explicit environment `Env` that decides which calls fail,
and by event traces recording the order of the effectful calls each function
makes.  Channels are modelled as finite lists; the nondeterministic
distribution of the items of a shared channel to several reader goroutines is
modelled by an explicit schedule (`workerStreams`), and the goroutine /
WaitGroup interleavings of `fileDownloader` by a small-step transition
relation (`PoolStep`, `PoolReach`).
-/

/-- An attachment record: the fields of `slack.File` that `files.go` reads
(`f.ID`, `f.Name`, `f.Size`, `f.URLPrivateDownload`). -/
structure SlackFile where
  id : String
  name : String
  size : Nat
  urlPrivateDownload : String
deriving Repr, DecidableEq

/-- Modelled from the spec: a threaded reply carries zero or more
attachments (one level of nesting only — replies do not themselves have
replies).  The `Message` type is not part of the given sources; `none`
models a nil attachment slice. -/
structure Reply where
  files : Option (List SlackFile)
deriving Repr, DecidableEq

/-- Modelled from the spec: a conversation entry with zero or more
attachments and zero or more threaded replies.  The Go `Message` type is
defined outside the given sources; `files.go` reads `m[i].Files` (nil
checked) and `reply.Files` of each entry of `m[i].ThreadReplies`. -/
structure Message where
  files : Option (List SlackFile)
  threadReplies : List Reply
deriving Repr, DecidableEq

/-- Modelled from the spec: a channel identifier plus an ordered message
sequence (the `Channel` type is defined outside the given sources). -/
structure Channel where
  id : String
  messages : List Message
deriving Repr, DecidableEq

/-- The `Files` structure of `files.go`: result of extraction, an ordered
attachment sequence plus the originating channel identifier. -/
structure Files where
  files : List SlackFile
  channelID : String
deriving Repr, DecidableEq

/-- Embedding of `filesFromMessages`: the Go loop appends `m[i].Files`
(when non-nil) and then, for each threaded reply of `m[i]`, the files of
that reply (appending a nil slice is a no-op, hence `getD []`). -/
def filesFromMessages (m : List Message) : List SlackFile :=
  m.foldl
    (fun files msg =>
      let files :=
        match msg.files with
        | some fs => files ++ fs
        | none => files
      msg.threadReplies.foldl (fun acc reply => acc ++ reply.files.getD []) files)
    []

/-- Embedding of `ChannelFiles`: wraps extraction with the channel id. -/
def ChannelFiles (ch : Channel) : Files :=
  { files := filesFromMessages ch.messages, channelID := ch.id }

/-- Extraction order as the spec words it: for each message in original
order, its direct attachments in original order, then the attachments of
its threaded replies in original order; a missing attachment list is
treated as empty.  Stated for comparison with `filesFromMessages`. -/
def specExtractionOrder (m : List Message) : List SlackFile :=
  m.flatMap fun msg =>
    msg.files.getD [] ++ msg.threadReplies.flatMap fun r => r.files.getD []

/-- An error returned by an external call, with the distinction
`os.IsExist` makes on it. -/
inductive IOErr where
  | exist
  | other (msg : String)
deriving Repr, DecidableEq

/-- Embedding of the `os.IsExist` test used by `fileDownloader`. -/
def IOErr.isExist : IOErr → Bool
  | .exist => true
  | .other _ => false

/-- Rendering of an error into a log line (Go prints `err` with `%s`). -/
def IOErr.message : IOErr → String
  | .exist => "file exists"
  | .other m => m

/-- Environment deciding which external calls fail during one run:
`os.Mkdir` on the target directory, `os.Create` on a given path, and
`client.GetFile` on a given URL.  `none` means the call succeeds. -/
structure Env where
  mkdirErr : Option IOErr
  createErr : String → Option IOErr
  getFileErr : String → Option IOErr

/-- Effectful calls made by `SaveFileTo`, in program order: `os.Create`,
`client.GetFile`, the rate-limiter `l.Wait`, and the deferred
`file.Close`. -/
inductive Event where
  | create (path : String)
  | getFile (url : String)
  | limiterWait
  | closeFile (path : String)
deriving Repr, DecidableEq

/-- Embedding of `filename`: `fmt.Sprintf("%s-%s", f.ID, f.Name)`. -/
def filename (f : SlackFile) : String :=
  f.id ++ "-" ++ f.name

/-- Embedding of `filepath.Join(dir, name)` for the non-empty, already
clean components `files.go` passes it. -/
def filepathJoin (dir name : String) : String :=
  dir ++ "/" ++ name

/-- Outcome of one `SaveFileTo` call: the trace of effectful calls in the
order made, the two Go return values (`int64` byte count and error), and
the files existing on disk afterwards that the call created (`SaveFileTo`
never removes a file it created). -/
structure SaveResult where
  trace : List Event
  bytes : Int
  err : Option IOErr
  created : List String
deriving Repr, DecidableEq

/-- Embedding of `SaveFileTo`: join the path, `os.Create` it (failure
returns `(0, err)`), `GetFile` the private download URL into it (failure
returns `(0, err)`, after the deferred `Close`), wait on the rate limiter
(inside the `limiter.file` trace region, after the transfer), and return
`int64(f.Size)`.  The deferred `Close` runs on every path after a
successful `Create`. -/
def SaveFileTo (env : Env) (dir : String) (f : SlackFile) : SaveResult :=
  let filePath := filepathJoin dir (filename f)
  match env.createErr filePath with
  | some e => { trace := [.create filePath], bytes := 0, err := some e, created := [] }
  | none =>
    match env.getFileErr f.urlPrivateDownload with
    | some e =>
      { trace := [.create filePath, .getFile f.urlPrivateDownload, .closeFile filePath]
        bytes := 0, err := some e, created := [filePath] }
    | none =>
      { trace := [.create filePath, .getFile f.urlPrivateDownload, .limiterWait,
                  .closeFile filePath]
        bytes := Int.ofNat f.size, err := none, created := [filePath] }

/-- Loop body of `seenFilter`, recursing over the upstream items with the
`seen` map (modelled as the list of ids inserted so far): an id already
seen is skipped with a log line, otherwise the id is recorded and the item
forwarded downstream.  Returns the downstream queue and the log lines. -/
def seenFilterGo : List String → List SlackFile → List SlackFile × List String
  | _, [] => ([], [])
  | seen, f :: rest =>
    if seen.contains f.id then
      let r := seenFilterGo seen rest
      (r.1, ("already seen " ++ filename f ++ ", skipping") :: r.2)
    else
      let r := seenFilterGo (f.id :: seen) rest
      (f :: r.1, r.2)

/-- Embedding of `seenFilter` on the sequence of items its goroutine
receives from `filesC`: starts with an empty `seen` map, closes the
downstream queue exactly when the upstream ends. -/
def seenFilter (filesC : List SlackFile) : List SlackFile × List String :=
  seenFilterGo [] filesC

/-- Embedding of `worker`: drains its stream, logging before each
download, calling `SaveFileTo`, logging a failure (the Go `%q` quotes the
filename) and proceeding to the next item; the final per-item log line is
printed on every path.  Returns the log lines of the whole loop. -/
def worker (env : Env) (dir : String) (filesC : List SlackFile) : List String :=
  filesC.flatMap fun file =>
    let r := SaveFileTo env dir file
    ["saving " ++ filename file ++ ", size: " ++ toString file.size]
      ++ (match r.err with
          | some e => ["error saving \"" ++ filename file ++ "\": " ++ e.message]
          | none => [])
      ++ ["file " ++ filename file ++ " saved: " ++ toString r.bytes ++ " bytes written"]

/-- Modelled from the spec: the configuration consumed by the pipeline,
`sd.options.dumpfiles` (whether to download at all) and
`sd.options.workers` (pool size); the `options` type is defined outside
the given sources. -/
structure Options where
  dumpfiles : Bool
  workers : Nat
deriving Repr, DecidableEq

/-- Outcome of a `fileDownloader` call: the returned error, whether any
worker goroutines are launched, and whether the returned `done` channel is
ever closed (in a run where every launched goroutine is eventually
scheduled and terminates). -/
structure FDResult where
  err : Option IOErr
  workersStarted : Bool
  doneEverClosed : Bool
deriving Repr, DecidableEq

/-- Embedding of the sequential control flow of `fileDownloader`: when
`dumpfiles` is off, `done` is closed at once and no worker starts; then
`os.Mkdir(dir, 0777)` runs, and an error failing the `os.IsExist` test is
returned — on that path no goroutine has been started and, the comment
"channels done is closed by defer" notwithstanding, the function contains
no defer, so the returned `done` channel is never closed.  Otherwise the
workers and the sentinel (which closes `done` after `wg.Wait()`) are
launched and `nil` is returned. -/
def fileDownloader (opts : Options) (env : Env) : FDResult :=
  if opts.dumpfiles = false then
    { err := none, workersStarted := false, doneEverClosed := true }
  else
    match env.mkdirErr with
    | some e =>
      if e.isExist then { err := none, workersStarted := true, doneEverClosed := true }
      else { err := some e, workersStarted := false, doneEverClosed := false }
    | none => { err := none, workersStarted := true, doneEverClosed := true }

/-- Distribution of the shared `toDownload` channel among the `w` reader
goroutines that `fileDownloader` creates (each worker calls
`seenFilter(toDownload)`, so each of the `w` dedup goroutines reads the
shared channel): a schedule assigns each sent item the index of the
goroutine that receives it; each goroutine receives its items in channel
order.  `workerStreams` returns, per goroutine index, the sequence of
items it receives. -/
def workerStreams (w : Nat) (sched : List Nat) (xs : List SlackFile) : List (List SlackFile) :=
  (List.range w).map fun j => ((xs.zip sched).filter fun p => p.2 == j).map fun p => p.1

/-- Paths passed to `os.Create` during one `SaveFileTo` call, read off its
trace. -/
def createCalls (r : SaveResult) : List String :=
  r.trace.filterMap fun e =>
    match e with
    | .create p => some p
    | _ => none

/-- All `os.Create` calls of one pipeline run under a given schedule: each
of the `w` workers runs its own `seenFilter` instance over the items its
dedup goroutine receives and calls `SaveFileTo` on each item that
instance forwards. -/
def poolCreateCalls (env : Env) (dir : String) (w : Nat) (sched : List Nat)
    (xs : List SlackFile) : List String :=
  (workerStreams w sched xs).flatMap fun stream =>
    (seenFilter stream).1.flatMap fun f => createCalls (SaveFileTo env dir f)

/-- State of the goroutine system `fileDownloader` sets up after a
successful `Mkdir`: how many workers the launcher goroutine has spawned,
how many have exited, the `sync.WaitGroup` counter, and whether the
sentinel has closed `done`. -/
structure PoolState where
  spawned : Nat
  exited : Nat
  counter : Nat
  doneClosed : Bool
deriving Repr, DecidableEq

/-- Interleaving steps of the goroutines of `fileDownloader` with `w`
workers.  The launcher goroutine runs `wg.Add(1)` immediately before
spawning each worker (`spawn`); a spawned worker finishes its loop and
runs `wg.Done()` (`finish`); the `wg.Wait()` of the sentinel goroutine
returns whenever it observes a zero counter — in particular before the
launcher goroutine has run at all, since the `wg.Add` calls happen in a
separate goroutine with no ordering against the sentinel — after which it
closes `done` (`sentinel`). -/
inductive PoolStep (w : Nat) : PoolState → PoolState → Prop where
  | spawn (s : PoolState) (h : s.spawned < w) :
      PoolStep w s ⟨s.spawned + 1, s.exited, s.counter + 1, s.doneClosed⟩
  | finish (s : PoolState) (h : s.exited < s.spawned) (hc : 0 < s.counter) :
      PoolStep w s ⟨s.spawned, s.exited + 1, s.counter - 1, s.doneClosed⟩
  | sentinel (s : PoolState) (h : s.counter = 0) (hd : s.doneClosed = false) :
      PoolStep w s ⟨s.spawned, s.exited, s.counter, true⟩

/-- States reachable from the initial state (no worker spawned, counter
zero, `done` open) by interleaving the goroutines. -/
inductive PoolReach (w : Nat) : PoolState → Prop where
  | start : PoolReach w ⟨0, 0, 0, false⟩
  | next {s t : PoolState} : PoolReach w s → PoolStep w s t → PoolReach w t

/-- Completion-signal soundness as the spec claims it: in every reachable
state in which `done` has been closed, every spawned worker has exited. -/
def DoneOnlyAfterAllExited (w : Nat) : Prop :=
  ∀ s : PoolState, PoolReach w s → s.doneClosed = true → s.exited = s.spawned

/-! ## Extraction order (C7) -/

/-- Folding the per-reply append over an accumulator appends the
flattened reply files. -/
theorem replyFoldl_eq (rs : List Reply) (acc : List SlackFile) :
    rs.foldl (fun a reply => a ++ reply.files.getD []) acc
      = acc ++ rs.flatMap (fun r => r.files.getD []) := by
  induction rs generalizing acc with
  | nil => simp
  | cons r rest ih => simp [ih, List.append_assoc]

/-- The message fold of `filesFromMessages` over an accumulator appends
the spec-ordered extraction. -/
theorem filesFromMessages_foldl (m : List Message) (acc : List SlackFile) :
    m.foldl
      (fun files msg =>
        let files :=
          match msg.files with
          | some fs => files ++ fs
          | none => files
        msg.threadReplies.foldl (fun a reply => a ++ reply.files.getD []) files)
      acc
    = acc ++ specExtractionOrder m := by
  induction m generalizing acc with
  | nil => simp [specExtractionOrder]
  | cons msg rest ih =>
    rw [List.foldl_cons, ih]
    cases hf : msg.files with
    | none =>
      simp only [hf, replyFoldl_eq, specExtractionOrder, List.flatMap_cons,
        Option.getD_none, List.nil_append, List.append_assoc]
    | some fs =>
      simp only [hf, replyFoldl_eq, specExtractionOrder, List.flatMap_cons,
        Option.getD_some, List.append_assoc]

/-- C7: for every message sequence, extraction produces the attachments in
exactly this order: for each message in original order, its direct
attachments in original order, then the attachments of its threaded
replies in original order; extraction is a total function on messages
(no error result), a missing attachment list counts as empty, and
`ChannelFiles` pairs this sequence with the channel id. -/
theorem c7_extraction_order (m : List Message) (ch : Channel) :
    filesFromMessages m = specExtractionOrder m ∧
    ChannelFiles ch =
      { files := specExtractionOrder ch.messages, channelID := ch.id } := by
  have h : ∀ ms : List Message, filesFromMessages ms = specExtractionOrder ms := by
    intro ms
    simpa [filesFromMessages] using filesFromMessages_foldl ms []
  exact ⟨h m, by simp [ChannelFiles, h]⟩

/-! ## Deduplication stage (C2) -/

/-- An id already in the seen map never appears downstream. -/
theorem seenFilterGo_countP_of_seen (i : String) (seen : List String)
    (xs : List SlackFile) (h : seen.contains i = true) :
    (seenFilterGo seen xs).1.countP (fun f => f.id == i) = 0 := by
  induction xs generalizing seen with
  | nil => simp [seenFilterGo]
  | cons f rest ih =>
    by_cases hc : seen.contains f.id
    · simp only [seenFilterGo, hc, if_true]
      exact ih seen h
    · have hne : (f.id == i) = false := by
        apply beq_eq_false_iff_ne.mpr
        intro hfi
        rw [hfi] at hc
        exact hc h
      simp only [seenFilterGo, hc, if_false, Bool.false_eq_true, List.countP_cons, hne]
      have hcons : (f.id :: seen).contains i = true := by
        rw [List.contains_cons, h, Bool.or_true]
      simpa using ih (f.id :: seen) hcons

/-- An id not yet seen that occurs upstream appears downstream exactly
once. -/
theorem seenFilterGo_countP_of_unseen (i : String) (seen : List String)
    (xs : List SlackFile) (hs : seen.contains i = false)
    (hx : 0 < xs.countP (fun f => f.id == i)) :
    (seenFilterGo seen xs).1.countP (fun f => f.id == i) = 1 := by
  induction xs generalizing seen with
  | nil => simp at hx
  | cons f rest ih =>
    by_cases hc : seen.contains f.id
    · have hne : (f.id == i) = false := by
        apply beq_eq_false_iff_ne.mpr
        intro hfi
        rw [hfi] at hc
        rw [hs] at hc
        exact Bool.false_ne_true hc
      simp only [seenFilterGo, hc, if_true]
      apply ih seen hs
      simpa [List.countP_cons, hne] using hx
    · by_cases hfi : f.id = i
      · have hbeq : (f.id == i) = true := beq_iff_eq.mpr hfi
        simp only [seenFilterGo, hc, if_false, Bool.false_eq_true, List.countP_cons, hbeq,
          if_true]
        have : (f.id :: seen).contains i = true := by
          rw [List.contains_cons, beq_iff_eq.mpr hfi.symm, Bool.true_or]
        rw [seenFilterGo_countP_of_seen i (f.id :: seen) rest this]
      · have hne : (f.id == i) = false := beq_eq_false_iff_ne.mpr hfi
        simp only [seenFilterGo, hc, if_false, Bool.false_eq_true, List.countP_cons, hne]
        have hcons : (f.id :: seen).contains i = false := by
          rw [List.contains_cons, hs, Bool.or_false]
          exact beq_eq_false_iff_ne.mpr (Ne.symm hfi)
        have hx' : 0 < rest.countP (fun f => f.id == i) := by
          simpa [List.countP_cons, hne] using hx
        simpa using ih (f.id :: seen) hcons hx'

/-- For an id not yet seen, the first downstream item with that id is the
first upstream item with that id. -/
theorem seenFilterGo_find_of_unseen (i : String) (seen : List String)
    (xs : List SlackFile) (hs : seen.contains i = false) :
    (seenFilterGo seen xs).1.find? (fun f => f.id == i)
      = xs.find? (fun f => f.id == i) := by
  induction xs generalizing seen with
  | nil => simp [seenFilterGo]
  | cons f rest ih =>
    by_cases hc : seen.contains f.id
    · have hne : (f.id == i) = false := by
        apply beq_eq_false_iff_ne.mpr
        intro hfi
        rw [hfi] at hc
        rw [hs] at hc
        exact Bool.false_ne_true hc
      simp only [seenFilterGo, hc, if_true, List.find?_cons, hne]
      exact ih seen hs
    · by_cases hfi : f.id = i
      · have hbeq : (f.id == i) = true := beq_iff_eq.mpr hfi
        simp only [seenFilterGo, hc, if_false, Bool.false_eq_true, List.find?_cons, hbeq,
          cond_true]
      · have hne : (f.id == i) = false := beq_eq_false_iff_ne.mpr hfi
        have hcons : (f.id :: seen).contains i = false := by
          rw [List.contains_cons, hs, Bool.or_false]
          exact beq_eq_false_iff_ne.mpr (Ne.symm hfi)
        simp only [seenFilterGo, hc, if_false, Bool.false_eq_true, List.find?_cons, hne]
        exact ih (f.id :: seen) hcons

/-- Every upstream item is either forwarded downstream or logged as a
skip: the two output lengths always sum to the input length. -/
theorem seenFilterGo_length (seen : List String) (xs : List SlackFile) :
    (seenFilterGo seen xs).1.length + (seenFilterGo seen xs).2.length = xs.length := by
  induction xs generalizing seen with
  | nil => simp [seenFilterGo]
  | cons f rest ih =>
    by_cases hc : seen.contains f.id
    · simp only [seenFilterGo, hc, if_true, List.length_cons]
      have := ih seen
      omega
    · simp only [seenFilterGo, hc, if_false, Bool.false_eq_true, List.length_cons]
      have := ih (f.id :: seen)
      omega

/-- C2: for every input sequence containing some attachment id more than
once, the downstream queue of the dedup stage contains that id exactly
once, the single emitted item is the first occurrence in input order, and
every item not forwarded is matched by one logged skip line (the filter
returns no error). -/
theorem c2_dedup_first_occurrence (xs : List SlackFile) (i : String)
    (h : 2 ≤ xs.countP (fun f => f.id == i)) :
    (seenFilter xs).1.countP (fun f => f.id == i) = 1 ∧
    (seenFilter xs).1.find? (fun f => f.id == i) = xs.find? (fun f => f.id == i) ∧
    (seenFilter xs).1.length + (seenFilter xs).2.length = xs.length := by
  refine ⟨?_, ?_, ?_⟩
  · exact seenFilterGo_countP_of_unseen i [] xs rfl (by omega)
  · exact seenFilterGo_find_of_unseen i [] xs rfl
  · exact seenFilterGo_length [] xs

/-! ## Concrete inputs used by the witnesses -/

/-- Sample attachment with id F1. -/
def wfA : SlackFile := ⟨"F1", "a.txt", 3, "https://sl/a"⟩

/-- Sample attachment with id F2. -/
def wfB : SlackFile := ⟨"F2", "b.txt", 4, "https://sl/b"⟩

/-- Second sample attachment carrying id F1, differing in the remaining
fields from `wfA`. -/
def wfA2 : SlackFile := ⟨"F1", "a2.txt", 9, "https://sl/a2"⟩

/-- Environment in which every external call succeeds. -/
def envAllOk : Env := ⟨none, fun _ => none, fun _ => none⟩

/-- Environment in which every `os.Create` fails. -/
def envCreateFail : Env := ⟨none, fun _ => some (IOErr.other "permission denied"), fun _ => none⟩

/-- Environment in which every `GetFile` transfer fails. -/
def envXferFail : Env := ⟨none, fun _ => none, fun _ => some (IOErr.other "connection reset")⟩

/-- Environment in which `os.Mkdir` fails with an already-exists error. -/
def envDirExist : Env := ⟨some IOErr.exist, fun _ => none, fun _ => none⟩

/-- Environment in which `os.Mkdir` fails with a non-exist error. -/
def envDirFail : Env := ⟨some (IOErr.other "disk full"), fun _ => none, fun _ => none⟩

/-- Witness for C2 at a concrete stream in which id F1 occurs twice. -/
theorem c2_dedup_first_occurrence_witness :
    2 ≤ [wfA, wfB, wfA2].countP (fun f => f.id == "F1") ∧
    ((seenFilter [wfA, wfB, wfA2]).1.countP (fun f => f.id == "F1") = 1 ∧
      (seenFilter [wfA, wfB, wfA2]).1.find? (fun f => f.id == "F1")
        = [wfA, wfB, wfA2].find? (fun f => f.id == "F1") ∧
      (seenFilter [wfA, wfB, wfA2]).1.length + (seenFilter [wfA, wfB, wfA2]).2.length
        = [wfA, wfB, wfA2].length) :=
  ⟨by decide, c2_dedup_first_occurrence [wfA, wfB, wfA2] "F1" (by decide)⟩

/-! ## Download operation (C4, C8, C9) -/

/-- C4: for every attachment whose create and transfer succeed,
`SaveFileTo` performs, in this order, the file-create call at
`dir ++ "/" ++ id ++ "-" ++ name`, the transfer of the attachment bytes,
and then the rate-limiter wait (after the transfer, not before), and
returns the byte count `f.size` with no error. -/
theorem c4_download_order (env : Env) (dir : String) (f : SlackFile)
    (h1 : env.createErr (filepathJoin dir (filename f)) = none)
    (h2 : env.getFileErr f.urlPrivateDownload = none) :
    SaveFileTo env dir f =
      { trace := [Event.create (dir ++ "/" ++ (f.id ++ "-" ++ f.name)),
                  Event.getFile f.urlPrivateDownload,
                  Event.limiterWait,
                  Event.closeFile (dir ++ "/" ++ (f.id ++ "-" ++ f.name))]
        bytes := Int.ofNat f.size
        err := none
        created := [dir ++ "/" ++ (f.id ++ "-" ++ f.name)] } := by
  simp only [SaveFileTo]
  rw [h1, h2]
  rfl

/-- Witness for C4 at a concrete attachment and the all-success
environment. -/
theorem c4_download_order_witness :
    envAllOk.createErr (filepathJoin "out" (filename wfA)) = none ∧
    envAllOk.getFileErr wfA.urlPrivateDownload = none ∧
    SaveFileTo envAllOk "out" wfA =
      { trace := [Event.create ("out" ++ "/" ++ (wfA.id ++ "-" ++ wfA.name)),
                  Event.getFile wfA.urlPrivateDownload,
                  Event.limiterWait,
                  Event.closeFile ("out" ++ "/" ++ (wfA.id ++ "-" ++ wfA.name))]
        bytes := Int.ofNat wfA.size
        err := none
        created := ["out" ++ "/" ++ (wfA.id ++ "-" ++ wfA.name)] } :=
  ⟨rfl, rfl, c4_download_order envAllOk "out" wfA rfl rfl⟩

/-- C8: for every attachment whose download fails (create error or
transfer error), `SaveFileTo` returns 0 bytes together with the error and
never reaches the rate-limiter wait: a permit is consumed only on a
successful transfer. -/
theorem c8_failure_skips_limiter (env : Env) (dir : String) (f : SlackFile)
    (h : (SaveFileTo env dir f).err ≠ none) :
    (SaveFileTo env dir f).bytes = 0 ∧
    Event.limiterWait ∉ (SaveFileTo env dir f).trace := by
  revert h
  simp only [SaveFileTo]
  cases env.createErr (filepathJoin dir (filename f)) with
  | some e => intro _h; simp
  | none =>
    cases env.getFileErr f.urlPrivateDownload with
    | some e => intro _h; simp
    | none => intro h; simp at h

/-- Witness for C8 at a concrete attachment and the failing-create
environment. -/
theorem c8_failure_skips_limiter_witness :
    (SaveFileTo envCreateFail "out" wfA).err ≠ none ∧
    ((SaveFileTo envCreateFail "out" wfA).bytes = 0 ∧
      Event.limiterWait ∉ (SaveFileTo envCreateFail "out" wfA).trace) :=
  ⟨by decide, c8_failure_skips_limiter envCreateFail "out" wfA (by decide)⟩

/-- C9: for every attachment whose transfer fails after a successful
create, `SaveFileTo` returns the transfer error, yet the create call at
`<dir>/<id>-<name>` has happened and the created file is still on disk
after the call (the operation is not atomic on error). -/
theorem c9_created_file_persists (env : Env) (dir : String) (f : SlackFile) (e : IOErr)
    (h1 : env.createErr (filepathJoin dir (filename f)) = none)
    (h2 : env.getFileErr f.urlPrivateDownload = some e) :
    (SaveFileTo env dir f).err = some e ∧
    Event.create (filepathJoin dir (filename f)) ∈ (SaveFileTo env dir f).trace ∧
    (SaveFileTo env dir f).created = [filepathJoin dir (filename f)] := by
  simp only [SaveFileTo]
  rw [h1, h2]
  simp

/-- Witness for C9 at a concrete attachment and the failing-transfer
environment. -/
theorem c9_created_file_persists_witness :
    envXferFail.createErr (filepathJoin "out" (filename wfA)) = none ∧
    envXferFail.getFileErr wfA.urlPrivateDownload = some (IOErr.other "connection reset") ∧
    ((SaveFileTo envXferFail "out" wfA).err = some (IOErr.other "connection reset") ∧
      Event.create (filepathJoin "out" (filename wfA)) ∈ (SaveFileTo envXferFail "out" wfA).trace ∧
      (SaveFileTo envXferFail "out" wfA).created = [filepathJoin "out" (filename wfA)]) :=
  ⟨rfl, rfl, c9_created_file_persists envXferFail "out" wfA (IOErr.other "connection reset") rfl rfl⟩

/-! ## Worker failure policy and error propagation (C5, C6, C10) -/

/-- Only the Mkdir pre-flight error failing the `os.IsExist` test is ever
returned by `fileDownloader`; per-item create and transfer failures never
reach its error return. -/
theorem fileDownloader_err_preflight (opts : Options) (env : Env) (r : IOErr)
    (h : (fileDownloader opts env).err = some r) :
    env.mkdirErr = some r ∧ r.isExist = false := by
  unfold fileDownloader at h
  by_cases hd : opts.dumpfiles = false
  · rw [if_pos hd] at h
    simp at h
  · rw [if_neg hd] at h
    cases hm : env.mkdirErr with
    | none => rw [hm] at h; simp at h
    | some e =>
      rw [hm] at h
      by_cases hex : e.isExist
      · simp [hex] at h
      · simp [hex] at h
        subst h
        exact ⟨rfl, by simpa using hex⟩

/-- C5: for every attachment in the stream of a worker whose download
fails, the failure is logged with the attachment identity (its
`<id>-<name>` filename), the worker still emits the per-item log of every
item in its stream (it proceeds past the failure and never aborts), and
such per-item failures are never surfaced through the error return of
`fileDownloader` — only the Mkdir pre-flight error is. -/
theorem c5_item_failures_logged_not_returned (env : Env) (dir : String)
    (filesC : List SlackFile) (f : SlackFile) (e : IOErr)
    (hf : f ∈ filesC) (he : (SaveFileTo env dir f).err = some e) :
    ("error saving \"" ++ filename f ++ "\": " ++ e.message) ∈ worker env dir filesC ∧
    (∀ g ∈ filesC, ("saving " ++ filename g ++ ", size: " ++ toString g.size)
      ∈ worker env dir filesC) ∧
    (∀ opts : Options, ∀ r : IOErr, (fileDownloader opts env).err = some r →
      env.mkdirErr = some r ∧ r.isExist = false) := by
  refine ⟨?_, ?_, ?_⟩
  · unfold worker
    apply List.mem_flatMap.mpr
    refine ⟨f, hf, ?_⟩
    simp [he]
  · intro g hg
    unfold worker
    apply List.mem_flatMap.mpr
    exact ⟨g, hg, by simp⟩
  · intro opts r h
    exact fileDownloader_err_preflight opts env r h

/-- Witness for C5: a worker stream of two items in the environment where
every transfer fails. -/
theorem c5_item_failures_logged_not_returned_witness :
    wfB ∈ [wfA, wfB] ∧
    (SaveFileTo envXferFail "out" wfB).err = some (IOErr.other "connection reset") ∧
    (("error saving \"" ++ filename wfB ++ "\": " ++ (IOErr.other "connection reset").message)
        ∈ worker envXferFail "out" [wfA, wfB] ∧
      (∀ g ∈ [wfA, wfB], ("saving " ++ filename g ++ ", size: " ++ toString g.size)
        ∈ worker envXferFail "out" [wfA, wfB]) ∧
      (∀ opts : Options, ∀ r : IOErr, (fileDownloader opts envXferFail).err = some r →
        envXferFail.mkdirErr = some r ∧ r.isExist = false)) :=
  ⟨by decide, rfl,
    c5_item_failures_logged_not_returned envXferFail "out" [wfA, wfB] wfB
      (IOErr.other "connection reset") (by decide) rfl⟩

/-- C6: with downloads enabled, an already-exists Mkdir error is not an
error — the run proceeds to launch workers with a nil error return (so a
second run against a pre-existing directory has no pre-flight error) —
while any other Mkdir error is returned to the caller and no worker is
launched. -/
theorem c6_mkdir_exist_not_error (opts : Options) (env1 env2 : Env) (e : IOErr)
    (hd : opts.dumpfiles = true)
    (h1 : env1.mkdirErr = some IOErr.exist)
    (h2 : env2.mkdirErr = some e) (he : e.isExist = false) :
    ((fileDownloader opts env1).err = none ∧
      (fileDownloader opts env1).workersStarted = true) ∧
    ((fileDownloader opts env2).err = some e ∧
      (fileDownloader opts env2).workersStarted = false) := by
  unfold fileDownloader
  rw [hd, h1, h2]
  constructor
  · simp [IOErr.isExist]
  · simp [he]

/-- Sample enabled configuration with four workers. -/
def optsW : Options := ⟨true, 4⟩

/-- Witness for C6 at the already-exists and the disk-full Mkdir
environments. -/
theorem c6_mkdir_exist_not_error_witness :
    optsW.dumpfiles = true ∧
    envDirExist.mkdirErr = some IOErr.exist ∧
    envDirFail.mkdirErr = some (IOErr.other "disk full") ∧
    (IOErr.other "disk full").isExist = false ∧
    (((fileDownloader optsW envDirExist).err = none ∧
        (fileDownloader optsW envDirExist).workersStarted = true) ∧
      ((fileDownloader optsW envDirFail).err = some (IOErr.other "disk full") ∧
        (fileDownloader optsW envDirFail).workersStarted = false)) :=
  ⟨rfl, rfl, rfl, rfl,
    c6_mkdir_exist_not_error optsW envDirExist envDirFail (IOErr.other "disk full")
      rfl rfl rfl rfl⟩

/-- C10: on a Mkdir failure that is not already-exists, `fileDownloader`
returns the error together with the `done` channel, and that channel is
never closed — the function has no defer despite its comment, and it
returns before the sentinel goroutine is started, so on the pre-flight
error path the completion signal never fires. -/
theorem c10_preflight_done_never_fires (opts : Options) (env : Env) (e : IOErr)
    (hd : opts.dumpfiles = true) (hm : env.mkdirErr = some e) (he : e.isExist = false) :
    (fileDownloader opts env).err = some e ∧
    (fileDownloader opts env).doneEverClosed = false := by
  unfold fileDownloader
  rw [hd, hm]
  simp [he]

/-- Witness for C10 at the disk-full Mkdir environment. -/
theorem c10_preflight_done_never_fires_witness :
    optsW.dumpfiles = true ∧
    envDirFail.mkdirErr = some (IOErr.other "disk full") ∧
    (IOErr.other "disk full").isExist = false ∧
    ((fileDownloader optsW envDirFail).err = some (IOErr.other "disk full") ∧
      (fileDownloader optsW envDirFail).doneEverClosed = false) :=
  ⟨rfl, rfl, rfl,
    c10_preflight_done_never_fires optsW envDirFail (IOErr.other "disk full") rfl rfl rfl⟩

/-! ## The two concurrency defects (C1, C3) -/

/-- C1: the claimed invariant fails on the code.  `fileDownloader` calls
`seenFilter(toDownload)` separately inside every worker goroutine, so each
worker dedups with its own seen set over only the items its own instance
happens to receive from the shared channel.  Under the schedule that
delivers the first occurrence of id F1 to worker 0 and the second
occurrence to worker 1 (two workers), the id is handed to both workers and
`os.Create` is called twice for it. -/
theorem c1_duplicate_id_created_twice :
    workerStreams 2 [0, 1] [wfA, wfA] = [[wfA], [wfA]] ∧
    (poolCreateCalls envAllOk "out" 2 [0, 1] [wfA, wfA]).count
        (filepathJoin "out" (filename wfA)) = 2 := by
  constructor
  · decide
  · decide

/-- C3: the claimed completion-signal property fails on the code.  All
`wg.Add(1)` calls of `fileDownloader` happen inside the launcher
goroutine, with no ordering against the sentinel goroutine, so the
sentinel can observe a zero WaitGroup counter, have `wg.Wait()` return and
close `done` before any worker is spawned; the state with `done` closed
and one worker spawned but not yet exited is then reachable, refuting the
statement that the signal never fires while some worker is still
running. -/
theorem c3_done_can_fire_with_worker_running : ¬ DoneOnlyAfterAllExited 1 := by
  intro h
  have h0 : PoolReach 1 ⟨0, 0, 0, true⟩ :=
    PoolReach.next PoolReach.start (PoolStep.sentinel ⟨0, 0, 0, false⟩ rfl rfl)
  have h1 : PoolReach 1 ⟨1, 0, 1, true⟩ :=
    PoolReach.next h0 (PoolStep.spawn ⟨0, 0, 0, true⟩ Nat.one_pos)
  exact absurd (h ⟨1, 0, 1, true⟩ h1 rfl) (by decide)
